import Mathlib

/-!
Verification development for the forex-bot trading engine (src/main.py).

The Python code is shallowly embedded: prices are exact rationals, pandas
NaN cells are `Option.none`, network calls and Python exceptions are
`Except` values supplied by an explicit environment, and the engine
methods become pure functions over that environment.
-/

/-- One OHLC candle as consumed by the indicator code. The source also
carries a timestamp, an opening price and a volume column, but the engine
logic in `compute_indicators` and `_size_from_risk` reads only the high,
low and close columns, so only those are modelled. -/
structure Candle where
  high : ℚ
  low : ℚ
  close : ℚ
deriving DecidableEq, Repr

/-- One row of the indicator frame produced by `compute_indicators`:
columns ema_fast, ema_slow, rsi, atr. The ema columns are always defined
for a nonempty frame; rsi and atr are NaN (here `none`) before warm-up or,
for rsi, when the smoothed loss is zero. -/
structure Row where
  ema_fast : ℚ
  ema_slow : ℚ
  rsi : Option ℚ
  atr : Option ℚ
deriving DecidableEq, Repr

/-- Recursive step of pandas `ewm(..., adjust=False).mean()`:
`e[t] = alpha * x[t] + (1 - alpha) * e[t-1]`. -/
def ewmFrom (a prev : ℚ) : List ℚ → List ℚ
  | [] => []
  | x :: xs =>
    let e : ℚ := a * x + (1 - a) * prev
    e :: ewmFrom a e xs

/-- pandas `series.ewm(alpha=a, adjust=False).mean()` on a series with no
NaN entries: the first output equals the first input, later outputs follow
the exponential recursion. -/
def ewm (a : ℚ) : List ℚ → List ℚ
  | [] => []
  | x :: xs => x :: ewmFrom a x xs

/-- The close column of a candle frame. -/
def closesOf (df : List Candle) : List ℚ := df.map Candle.close

/-- `x["close"].diff()` without its leading NaN cell: entry `t-1` holds
`close[t] - close[t-1]`. -/
def deltasOf (df : List Candle) : List ℚ :=
  List.zipWith (fun p c => c.close - p.close) df df.tail

/-- `delta.clip(lower=0)` applied to the defined part of the diff. -/
def gainsOf (df : List Candle) : List ℚ :=
  (deltasOf df).map (fun d => max d 0)

/-- `(-delta).clip(lower=0)`, i.e. `-delta.clip(upper=0)`, on the defined
part of the diff. -/
def lossesOf (df : List Candle) : List ℚ :=
  (deltasOf df).map (fun d => max (-d) 0)

/-- The rsi cell computed from one smoothed gain and one smoothed loss.
The source line is `rs = gain / (loss.replace(0, np.nan))` followed by
`rsi = 100 - (100 / (1 + rs))`: a zero loss is replaced by NaN, the
division then yields NaN and the rsi cell is NaN, modelled as `none`. -/
def rsiCell (g l : ℚ) : Option ℚ :=
  if l = 0 then none else some (100 - 100 / (1 + g / l))

/-- The `x["rsi"]` column of `compute_indicators`. The diff has a NaN in
row 0, so both smoothed series and the rsi column start with a NaN cell;
from row 1 on the exponential smoothing with `alpha = 1/14` runs on the
defined gains and losses. -/
def rsiCol (df : List Candle) : List (Option ℚ) :=
  match df with
  | [] => []
  | _ :: _ =>
      none :: List.zipWith rsiCell (ewm (1/14) (gainsOf df)) (ewm (1/14) (lossesOf df))

/-- The true range `tr[t] = max(high-low, max(|high-prevClose|, |low-prevClose|))`
for rows `t ≥ 1`; row 0 is NaN because `close.shift()` is NaN there. -/
def trsOf (df : List Candle) : List ℚ :=
  List.zipWith
    (fun p c => max (c.high - c.low) (max |c.high - p.close| |c.low - p.close|))
    df df.tail

/-- The `x["atr"]` column: NaN in row 0, exponential smoothing with
`alpha = 1/14` of the true range from row 1 on. -/
def atrCol (df : List Candle) : List (Option ℚ) :=
  match df with
  | [] => []
  | _ :: _ => none :: (ewm (1/14) (trsOf df)).map some

/-- Four-way zip used to assemble the indicator rows column by column. -/
def zipWith4 (f : α → β → γ → δ → ε) : List α → List β → List γ → List δ → List ε
  | a :: as, b :: bs, c :: cs, d :: ds => f a b c d :: zipWith4 f as bs cs ds
  | _, _, _, _ => []

/-- `compute_indicators(df)`: ema(span 9) has `alpha = 2/(9+1) = 1/5`,
ema(span 21) has `alpha = 2/(21+1) = 1/11`; rsi and atr as above. An empty
frame is returned unchanged. -/
def compute_indicators (df : List Candle) : List Row :=
  zipWith4 Row.mk (ewm (1/5) (closesOf df)) (ewm (1/11) (closesOf df))
    (rsiCol df) (atrCol df)

/-- The string `"buy"` returned by `generate_signal`. -/
def buySig : List Char := ['b', 'u', 'y']

/-- The string `"sell"` returned by `generate_signal`. -/
def sellSig : List Char := ['s', 'e', 'l', 'l']

/-- Placeholder row for the (never reached) out-of-range `iloc` accesses:
`generate_signal` reads rows `-1` and `-2` only after checking
`len(df) >= 25`. -/
def dummyRow : Row := ⟨0, 0, none, none⟩

/-- `last["rsi"] < t` on a float column: a NaN cell compares false. -/
def rsiLtB (r : Option ℚ) (t : ℚ) : Bool :=
  match r with
  | none => false
  | some v => decide (v < t)

/-- `last["rsi"] > t` on a float column: a NaN cell compares false. -/
def rsiGtB (r : Option ℚ) (t : ℚ) : Bool :=
  match r with
  | none => false
  | some v => decide (t < v)

/-- `generate_signal(df)`: returns `"buy"`, `"sell"` or `""`. Requires at
least 25 rows, reads the last row and the one before it, fires buy on a
bullish ema cross with rsi below 70 and sell on a bearish ema cross with
rsi above 30. -/
def generate_signal (x : List Row) : List Char :=
  if x.length < 25 then []
  else
    let last := x.getLastD dummyRow
    let prev := x.dropLast.getLastD dummyRow
    let bull := decide (prev.ema_fast ≤ prev.ema_slow) && decide (last.ema_slow < last.ema_fast)
    let bear := decide (prev.ema_slow ≤ prev.ema_fast) && decide (last.ema_fast < last.ema_slow)
    if bull && rsiLtB last.rsi 70 then buySig
    else if bear && rsiGtB last.rsi 30 then sellSig
    else []

/-! ## Broker adapters and routing -/

/-- The two broker adapters constructed by the engine. -/
inductive Broker where
  | alpaca
  | oanda
deriving DecidableEq, Repr

/-- Side of a position as reported by a broker. -/
inductive Side where
  | long
  | short
deriving DecidableEq, Repr

/-- A position as reported by `positions()`. The engine only ever reads
the length of the positions list; symbol, side and quantity are carried
along because the broker reports them. -/
structure Position where
  symbol : List Char
  side : Side
  qty : ℚ
deriving DecidableEq, Repr

/-- Whether a reported position side points the same way as a generated
signal string: long matches buy, short matches sell. -/
def side_matches (s : Side) (sig : List Char) : Bool :=
  match s with
  | Side.long => sig == buySig
  | Side.short => sig == sellSig

/-- Uppercasing used by `symbol.split("/")[0].upper()`. -/
def upperOf (s : List Char) : List Char := s.map Char.toUpper

/-- The crypto base currencies accepted by the Alpaca adapter. -/
def cryptoBases : List (List Char) :=
  ["BTC", "ETH", "SOL", "LTC", "BCH", "DOGE"].map String.data

/-- `AlpacaBroker.instrument_ok`: the symbol contains a slash and the part
before the first slash, uppercased, is one of the known crypto bases. -/
def AlpacaBroker.instrument_ok (symbol : List Char) : Bool :=
  symbol.contains '/' && cryptoBases.contains (upperOf (symbol.takeWhile (· ≠ '/')))

/-- `OandaBroker.instrument_ok`: the symbol contains an underscore. -/
def OandaBroker.instrument_ok (symbol : List Char) : Bool :=
  symbol.contains '_'

/-- `Engine._broker_for`: tries the Alpaca adapter first, then the OANDA
adapter, and returns `None` when neither accepts the symbol. -/
def broker_for (symbol : List Char) : Option Broker :=
  if AlpacaBroker.instrument_ok symbol then some Broker.alpaca
  else if OandaBroker.instrument_ok symbol then some Broker.oanda
  else none

/-- Comparison router for the order-independence claim of the spec: the
same two membership tests consulted in the opposite order. -/
def broker_for_swapped (symbol : List Char) : Option Broker :=
  if OandaBroker.instrument_ok symbol then some Broker.oanda
  else if AlpacaBroker.instrument_ok symbol then some Broker.alpaca
  else none

/-! ## Risk sizing -/

/-- `max(float(last["atr"]), 1e-8)`, the floored ATR divisor of
`Engine._size_from_risk`. -/
def atrFloor (a : ℚ) : ℚ := max a (1 / 100000000)

/-- Python `round` to an integer: round half to even. -/
def pyRoundHalfEven (q : ℚ) : ℤ :=
  let f := ⌊q⌋
  let r := q - f
  if r < 1/2 then f
  else if 1/2 < r then f + 1
  else if f % 2 = 0 then f else f + 1

/-- Python `round(q, 6)`. -/
def round6 (q : ℚ) : ℚ := (pyRoundHalfEven (q * 1000000) : ℚ) / 1000000

/-- `Engine._equity`: the equity (Alpaca) or balance (OANDA) field of the
account; any exception inside `account()` is caught and 0.0 returned. -/
def equity_of (acct : Except (List Char) ℚ) : ℚ :=
  match acct with
  | .error _ => 0
  | .ok v => v

/-- `Engine._size_from_risk` with the equity, configured risk percentage
and the last atr cell made explicit:
`qty = (equity * risk_percent / 100) / max(atr, 1e-8)` and the result is
`max(1.0, round(qty, 6))`. A NaN atr cell (`none`) propagates through
`max`, division and `round` as NaN, and the final `max(1.0, NaN)` of
CPython returns its first argument 1.0. -/
def size_from_risk (equity risk_percent : ℚ) (a : Option ℚ) : ℚ :=
  match a with
  | none => 1
  | some v =>
      let risk_amt := equity * (risk_percent / 100)
      let qty := risk_amt / atrFloor v
      max 1 (round6 qty)

/-! ## Engine environment and one trade step -/

/-- The last atr cell of an indicator frame, as read by
`_size_from_risk` via `df.iloc[-1]["atr"]`. -/
def lastAtr (x : List Row) : Option ℚ := (x.getLastD dummyRow).atr

/-- The broker-and-config world one tick runs against: candle fetches,
position queries and account queries can each return a value or raise
(`Except.error` stands for a raised Python exception); `orderExc` tells
whether the order POST itself raises. The two config fields are the ones
`_trade_once` reads. -/
structure Env where
  fetch : Broker → List Char → Except (List Char) (List Candle)
  positionsOf : Broker → Except (List Char) (List Position)
  accountOf : Broker → Except (List Char) ℚ
  orderExc : Broker → Except (List Char) Unit
  risk_percent : ℚ
  max_positions : ℕ

/-- The possible structured results of `Engine._trade_once`. -/
inductive TrRes where
  /-- `{"symbol": ..., "error": "No broker supports this symbol"}` -/
  | noBroker
  /-- `{"symbol": ..., "warn": "no candles"}` -/
  | noCandles
  /-- `{"symbol": ..., "signal": ""}` -/
  | noSignal
  /-- `{"symbol": ..., "info": "max positions reached"}` -/
  | maxPositions
  /-- `{"symbol": ..., "signal": sig, "qty": qty, "order": ...}` -/
  | placed (sig : List Char) (qty : ℚ)
deriving DecidableEq, Repr

/-- `Engine._trade_once(symbol)`: route, fetch candles, compute
indicators, generate the signal, check the open-position count (an
exception in `positions()` is caught and ignored), size by risk and place
the market order. Exceptions of `fetch_candles` and of the order POST
propagate to the caller as `Except.error`. -/
def trade_once (env : Env) (symbol : List Char) : Except (List Char) TrRes :=
  match broker_for symbol with
  | none => .ok TrRes.noBroker
  | some br =>
    match env.fetch br symbol with
    | .error e => .error e
    | .ok df =>
      if df.isEmpty then .ok TrRes.noCandles
      else
        let x := compute_indicators df
        let sig := generate_signal x
        if sig.isEmpty then .ok TrRes.noSignal
        else
          let capped : Bool :=
            match env.positionsOf br with
            | .error _ => false
            | .ok pos => decide (env.max_positions ≤ pos.length)
          if capped then .ok TrRes.maxPositions
          else
            let qty := size_from_risk (equity_of (env.accountOf br)) env.risk_percent (lastAtr x)
            match env.orderExc br with
            | .error e => .error e
            | .ok _ => .ok (TrRes.placed sig qty)

/-- One per-symbol entry of the results list assembled by `Engine._loop`. -/
inductive Entry where
  /-- the structured dict returned by `_trade_once` -/
  | ok (symbol : List Char) (r : TrRes)
  /-- `{"symbol": sym, "error": str(e)}` from the per-symbol except arm -/
  | err (symbol : List Char) (e : List Char)
deriving DecidableEq, Repr

/-- The per-symbol try/except body of `Engine._loop`. -/
def stepEntry (env : Env) (s : List Char) : Entry :=
  match trade_once env s with
  | .ok r => .ok s r
  | .error e => .err s e

/-- The per-tick results list of `Engine._loop`: every configured symbol
is processed, each inside its own try/except. -/
def run_cycle (env : Env) (syms : List (List Char)) : List Entry :=
  syms.map (stepEntry env)

/-! ## Concrete data used by witnesses and counterexamples -/

/-- A flat candle at the given close with high = low = close. -/
def flatCandle (c : ℚ) : Candle := ⟨c, c, c⟩

/-- 25 candles: 22 closes at 100, then 99, 100, 101. The final bar makes
ema(9) cross above ema(21) while rsi stays just below 70, so
`generate_signal` fires buy on the last row. -/
def candlesA : List Candle :=
  (List.replicate 22 (flatCandle 100)) ++ [flatCandle 99, flatCandle 100, flatCandle 101]

/-- The same closes as `candlesA` but every high one unit above the close:
the close-driven ema and rsi columns are unchanged, the atr column is not. -/
def candlesB : List Candle :=
  candlesA.map (fun c => ⟨c.high + 1, c.low, c.close⟩)

/-- 25 candles with strictly rising closes 1, 2, ..., 25: every
close-to-close change is a gain. -/
def risingCandles : List Candle :=
  ([1, 2, 3, 4, 5, 6, 7, 8, 9, 10, 11, 12, 13, 14, 15, 16, 17, 18, 19, 20,
    21, 22, 23, 24, 25] : List ℚ).map flatCandle

/-- The symbol "BTC/USD". -/
def btcusd : List Char := "BTC/USD".data

/-- The symbol "EUR_USD". -/
def eurusd : List Char := "EUR_USD".data

/-- The symbol "XYZ", claimed by neither adapter. -/
def xyzSym : List Char := "XYZ".data

/-- A symbol accepted by both membership tests: it contains a slash with
the crypto base BTC before it, and it also contains an underscore. -/
def overlapSym : List Char := "BTC/A_B".data

/-- Environment for the pyramiding counterexample: the broker already
reports one long BTC/USD position, the account has equity 547, the
configured risk is 100 percent, and at most 3 positions are allowed. -/
def envC2 : Env where
  fetch := fun _ _ => .ok candlesA
  positionsOf := fun _ => .ok [⟨btcusd, Side.long, 1⟩]
  accountOf := fun _ => .ok 547
  orderExc := fun _ => .ok ()
  risk_percent := 100
  max_positions := 3

/-- Environment whose candle fetch always raises, standing for a network
error inside `fetch_candles`. -/
def envErr : Env where
  fetch := fun _ _ => .error "net".data
  positionsOf := fun _ => .ok []
  accountOf := fun _ => .ok 0
  orderExc := fun _ => .ok ()
  risk_percent := 1/2
  max_positions := 3

/-- Environment with empty candle responses everywhere. -/
def envEmpty : Env where
  fetch := fun _ _ => .ok []
  positionsOf := fun _ => .ok []
  accountOf := fun _ => .ok 0
  orderExc := fun _ => .ok ()
  risk_percent := 1/2
  max_positions := 3

/-- The indicator frame of `candlesA`, named for reuse in statements. -/
def xA : List Row := compute_indicators candlesA

/-- The indicator frame of `candlesB`. -/
def xB : List Row := compute_indicators candlesB

/-! ## Helper lemmas -/

lemma ewmFrom_length (a prev : ℚ) (l : List ℚ) : (ewmFrom a prev l).length = l.length := by
  induction l generalizing prev with
  | nil => rfl
  | cons x xs ih => simp [ewmFrom, ih]

lemma ewm_length (a : ℚ) (l : List ℚ) : (ewm a l).length = l.length := by
  cases l with
  | nil => rfl
  | cons x xs => simp [ewm, ewmFrom_length]

lemma zipWith4_length_le (f : α → β → γ → δ → ε) (as : List α) (bs : List β)
    (cs : List γ) (ds : List δ) : (zipWith4 f as bs cs ds).length ≤ as.length := by
  induction as generalizing bs cs ds with
  | nil => simp [zipWith4]
  | cons a as ih =>
    cases bs with
    | nil => simp [zipWith4]
    | cons b bs =>
      cases cs with
      | nil => simp [zipWith4]
      | cons c cs =>
        cases ds with
        | nil => simp [zipWith4]
        | cons d ds => simpa [zipWith4] using Nat.succ_le_succ (ih bs cs ds)

lemma compute_indicators_length_le (df : List Candle) :
    (compute_indicators df).length ≤ df.length := by
  calc (compute_indicators df).length ≤ (ewm (1/5) (closesOf df)).length :=
        zipWith4_length_le _ _ _ _ _
    _ = df.length := by simp [ewm_length, closesOf]

lemma ewmFrom_zeros (a : ℚ) (l : List ℚ) (h : ∀ x ∈ l, x = 0) : ewmFrom a 0 l = l := by
  induction l with
  | nil => rfl
  | cons x xs ih =>
    have hx : x = 0 := h x (by simp)
    have hxs : ∀ y ∈ xs, y = (0:ℚ) := fun y hy => h y (by simp [hy])
    have hz : a * x + (1 - a) * 0 = (0:ℚ) := by rw [hx]; ring
    simp only [ewmFrom]
    rw [hz, ih hxs, hx]

lemma ewm_zeros (a : ℚ) (l : List ℚ) (h : ∀ x ∈ l, x = 0) : ewm a l = l := by
  cases l with
  | nil => rfl
  | cons x xs =>
    have hx : x = 0 := h x (by simp)
    have hxs : ∀ y ∈ xs, y = (0:ℚ) := fun y hy => h y (by simp [hy])
    simp only [ewm]
    rw [hx, ewmFrom_zeros a xs hxs]

lemma zipWith_rsiCell_zero (gs ls : List ℚ) (h : ∀ l ∈ ls, l = 0) :
    ∀ o ∈ List.zipWith rsiCell gs ls, o = none := by
  induction gs generalizing ls with
  | nil => simp
  | cons g gs ih =>
    cases ls with
    | nil => simp
    | cons l ls =>
      intro o ho
      rcases (List.mem_cons).mp ho with h1 | h2
      · have hl : l = 0 := h l (by simp)
        rw [h1, hl]
        simp [rsiCell]
      · exact ih ls (fun y hy => h y (by simp [hy])) o h2

lemma getLast?_cons_all_none (vs : List (Option ℚ)) (h : ∀ o ∈ vs, o = none) :
    (none :: vs).getLast? = some none := by
  induction vs with
  | nil => rfl
  | cons v vs ih =>
    have hv : v = none := h v (by simp)
    have hvs : ∀ o ∈ vs, o = none := fun o ho => h o (by simp [ho])
    rw [List.getLast?_cons_cons, hv]
    exact ih hvs

lemma xA_eq : xA =
    ⟨100, 100, none, none⟩ :: List.replicate 21 ⟨100, 100, none, some 0⟩ ++
      [⟨499/5, 1099/11, some 0, some (1/14)⟩,
       ⟨2496/25, 12090/121, some (1400/27), some (27/196)⟩,
       ⟨12509/125, 133121/1331, some (37800/547), some (547/2744)⟩] := by
  norm_num [xA, candlesA, flatCandle, compute_indicators, closesOf, ewm, ewmFrom, rsiCol,
    atrCol, gainsOf, lossesOf, deltasOf, trsOf, rsiCell, zipWith4, List.replicate]

lemma xB_eq : xB =
    ⟨100, 100, none, none⟩ :: List.replicate 21 ⟨100, 100, none, some 1⟩ ++
      [⟨499/5, 1099/11, some 0, some 1⟩,
       ⟨2496/25, 12090/121, some (1400/27), some (15/14)⟩,
       ⟨12509/125, 133121/1331, some (37800/547), some (223/196)⟩] := by
  norm_num [xB, candlesB, candlesA, flatCandle, compute_indicators, closesOf, ewm, ewmFrom,
    rsiCol, atrCol, gainsOf, lossesOf, deltasOf, trsOf, rsiCell, zipWith4, List.replicate]

lemma lenA : xA.length = 25 := by rw [xA_eq]; rfl

lemma lenB : xB.length = 25 := by rw [xB_eq]; rfl

lemma lastA : xA.getLastD dummyRow = ⟨12509/125, 133121/1331, some (37800/547), some (547/2744)⟩ := by
  rw [xA_eq]; rfl

lemma prevA : xA.dropLast.getLastD dummyRow = ⟨2496/25, 12090/121, some (1400/27), some (27/196)⟩ := by
  rw [xA_eq]; rfl

lemma lastB : xB.getLastD dummyRow = ⟨12509/125, 133121/1331, some (37800/547), some (223/196)⟩ := by
  rw [xB_eq]; rfl

lemma prevB : xB.dropLast.getLastD dummyRow = ⟨2496/25, 12090/121, some (1400/27), some (15/14)⟩ := by
  rw [xB_eq]; rfl

lemma sigA : generate_signal xA = buySig := by
  have h25 : ¬ xA.length < 25 := by rw [lenA]; omega
  simp only [generate_signal, if_neg h25, lastA, prevA]
  norm_num [rsiLtB]

lemma sigB : generate_signal xB = buySig := by
  have h25 : ¬ xB.length < 25 := by rw [lenB]; omega
  simp only [generate_signal, if_neg h25, lastB, prevB]
  norm_num [rsiLtB]

lemma atrA : lastAtr xA = some ((547:ℚ)/2744) := by
  unfold lastAtr; rw [lastA]

lemma atrB : lastAtr xB = some ((223:ℚ)/196) := by
  unfold lastAtr; rw [lastB]

lemma qty2744 : size_from_risk (equity_of (Except.ok 547)) 100 (some ((547:ℚ)/2744)) = 2744 := by
  norm_num [size_from_risk, equity_of, atrFloor, round6, pyRoundHalfEven, max_def]

lemma trC2 : trade_once envC2 btcusd = .ok (TrRes.placed buySig 2744) := by
  have hbr : broker_for btcusd = some Broker.alpaca := by decide
  have hne : candlesA.isEmpty = false := by decide
  have sigA2 : generate_signal (compute_indicators candlesA) = buySig := sigA
  have atrA2 : lastAtr (compute_indicators candlesA) = some ((547:ℚ)/2744) := atrA
  simp only [trade_once, hbr, envC2, hne, sigA2, atrA2, qty2744]
  norm_num [buySig]

lemma risingDeltas : deltasOf risingCandles = List.replicate 24 1 := by
  norm_num [deltasOf, risingCandles, flatCandle, List.replicate]

lemma risingRsiLast : (rsiCol risingCandles).getLast? = some none := by
  norm_num [rsiCol, risingCandles, flatCandle, gainsOf, lossesOf, deltasOf, ewm, ewmFrom,
    rsiCell, List.getLast?]

/-! ## Claims -/

/-- C1 counterexample. With equity 0, risk percent 1 and atr 50 the computed
raw quantity `0 * (1/100) / max(50, 1e-8)` is ≤ 0, yet `_size_from_risk`
silently returns the number 1.0; it has no InsufficientSize failure path and
applies no position-cap bound. -/
theorem claim1_counterexample :
    (0:ℚ) * (1 / 100) / atrFloor 50 ≤ 0 ∧ size_from_risk 0 1 (some 50) = 1 := by
  constructor
  · norm_num [atrFloor, max_def]
  · norm_num [size_from_risk, round6, pyRoundHalfEven, atrFloor, max_def]

/-- C1 amended. The risk sizer is total and bounded below, not above: it
always returns at least 1.0 (so a non-positive computed quantity is clamped
to 1.0 instead of failing with InsufficientSize), and it is not bounded by
any maxPositionCap-derived quantity — equity 1000000 at 1 percent risk with
atr 1 yields the uncapped quantity 10000. -/
theorem claim1_amended_theorem :
    (∀ equity rp a, 1 ≤ size_from_risk equity rp a) ∧
    size_from_risk 1000000 1 (some 1) = 10000 := by
  constructor
  · intro equity rp a
    cases a with
    | none => exact le_refl 1
    | some v => simp only [size_from_risk]; exact le_max_left 1 _
  · norm_num [size_from_risk, round6, pyRoundHalfEven, atrFloor, max_def]

/-- C2 counterexample. The broker already reports a long BTC/USD position and
the fresh signal is buy (long), yet `_trade_once` places a new buy order of
quantity 2744: the engine never compares the held side with the signal, so
pyramiding happens whenever the position count is below `max_positions`. -/
theorem claim2_counterexample :
    envC2.positionsOf Broker.alpaca = .ok [⟨btcusd, Side.long, 1⟩] ∧
    side_matches Side.long buySig = true ∧
    generate_signal (compute_indicators candlesA) = buySig ∧
    trade_once envC2 btcusd = .ok (TrRes.placed buySig 2744) :=
  ⟨rfl, by decide, sigA, trC2⟩

/-- C2 amended. `_trade_once` skips ordering only when the broker position
count has reached `max_positions`; the side of the held positions is never
inspected, so when the count is below the limit a new market order is placed
even though a reported position already points the same way as the signal. -/
theorem claim2_amended_theorem (env : Env) (symbol : List Char) (br : Broker)
    (df : List Candle) (ps : List Position) (sig : List Char)
    (hbr : broker_for symbol = some br)
    (hdf : env.fetch br symbol = .ok df)
    (hne : df.isEmpty = false)
    (hsig : generate_signal (compute_indicators df) = sig)
    (hsne : sig.isEmpty = false)
    (hps : env.positionsOf br = .ok ps)
    (hcap : ps.length < env.max_positions)
    (hmatch : ∃ p ∈ ps, side_matches p.side sig = true)
    (hord : env.orderExc br = .ok ()) :
    trade_once env symbol =
      .ok (TrRes.placed sig
        (size_from_risk (equity_of (env.accountOf br)) env.risk_percent
          (lastAtr (compute_indicators df)))) := by
  have hcap2 : decide (env.max_positions ≤ ps.length) = false :=
    decide_eq_false (Nat.not_le.mpr hcap)
  simp only [trade_once, hbr, hdf, hne, hsig, hsne, hps, hcap2, hord]
  simp

/-- C2 amended, witness: the amended theorem applied to the concrete
pyramiding environment. -/
theorem claim2_amended_witness :
    trade_once envC2 btcusd =
      .ok (TrRes.placed buySig
        (size_from_risk (equity_of (envC2.accountOf Broker.alpaca)) envC2.risk_percent
          (lastAtr (compute_indicators candlesA)))) :=
  claim2_amended_theorem envC2 btcusd Broker.alpaca candlesA [⟨btcusd, Side.long, 1⟩] buySig
    (by decide) rfl (by decide) sigA (by decide) rfl (by decide)
    ⟨⟨btcusd, Side.long, 1⟩, by simp, by decide⟩ rfl

/-- C3 counterexample. Two candle frames with identical closes but different
highs give different last atr values — hence, per the claimed formula,
different stop distances — yet `generate_signal` returns the identical bare
string "buy" for both: the signal carries no stop price and no take-profit
price at all. -/
theorem claim3_counterexample :
    generate_signal xA = buySig ∧ generate_signal xB = buySig ∧
    lastAtr xA ≠ lastAtr xB := by
  refine ⟨sigA, sigB, ?_⟩
  rw [atrA, atrB]
  simp only [ne_eq, Option.some.injEq]
  norm_num

/-- C3 amended. A signal is only ever one of the three direction strings
"buy", "sell" or "": no stop price and no take-profit price is computed or
attached by the generator, and orders are later placed as plain market
orders. -/
theorem claim3_amended_theorem (x : List Row) :
    generate_signal x = buySig ∨ generate_signal x = sellSig ∨ generate_signal x = [] := by
  simp only [generate_signal]
  split
  · exact Or.inr (Or.inr rfl)
  · split
    · exact Or.inl rfl
    · split
      · exact Or.inr (Or.inl rfl)
      · exact Or.inr (Or.inr rfl)

/-- C4 counterexample. A 25-candle series (past the 22-row warm-up) whose
close-to-close changes are all gains: the smoothed loss is 0, the code
replaces the 0 divisor with NaN instead of adding an epsilon, and the last
rsi cell is NaN (undefined), contradicting the claim. -/
theorem claim4_counterexample :
    risingCandles.length = 25 ∧ (rsiCol risingCandles).getLast? = some none :=
  ⟨rfl, risingRsiLast⟩

/-- C4 amended. Whenever every close-to-close change of a series past the
warm-up window is a gain, the smoothed loss column is identically zero, the
`replace(0, NaN)` divisor makes `rs` NaN, and the final rsi cell is
undefined — there is no `avgLoss + epsilon` guard in the code. -/
theorem claim4_amended_theorem (df : List Candle) (h2 : 22 ≤ df.length)
    (hmono : ∀ d ∈ deltasOf df, 0 ≤ d) :
    (rsiCol df).getLast? = some none := by
  cases df with
  | nil => simp at h2
  | cons c cs =>
    have hloss : ∀ x ∈ lossesOf (c :: cs), x = (0:ℚ) := by
      intro x hx
      obtain ⟨d, hd, rfl⟩ := List.mem_map.mp hx
      exact max_eq_right (neg_nonpos.mpr (hmono d hd))
    simp only [rsiCol]
    apply getLast?_cons_all_none
    rw [ewm_zeros _ _ hloss]
    exact zipWith_rsiCell_zero _ _ hloss

/-- C4 amended, witness: the amended theorem applied to the strictly rising
25-candle series. -/
theorem claim4_amended_witness :
    (rsiCol risingCandles).getLast? = some none :=
  claim4_amended_theorem risingCandles (by decide)
    (by rw [risingDeltas]
        intro d hd
        rw [List.eq_of_mem_replicate hd]
        norm_num)

/-- C5 counterexample. The symbol "BTC/A_B" is accepted by both membership
tests (it contains a slash with crypto base BTC before it, and it contains an
underscore), and the two consultation orders route it to different adapters:
routing is not order-independent on such symbols. -/
theorem claim5_counterexample :
    AlpacaBroker.instrument_ok overlapSym = true ∧
    OandaBroker.instrument_ok overlapSym = true ∧
    broker_for overlapSym ≠ broker_for_swapped overlapSym := by decide

/-- C5 amended. For every symbol accepted by at most one of the two
membership tests, the routing result does not depend on the order in which
the tests are consulted; only symbols claimed by both adapters (such as
"BTC/A_B") are routed order-dependently, to the crypto adapter, because
`_broker_for` consults it first. -/
theorem claim5_amended_theorem (symbol : List Char)
    (h : ¬(AlpacaBroker.instrument_ok symbol = true ∧
           OandaBroker.instrument_ok symbol = true)) :
    broker_for symbol = broker_for_swapped symbol := by
  unfold broker_for broker_for_swapped
  by_cases ha : AlpacaBroker.instrument_ok symbol = true
  · have hb : ¬ OandaBroker.instrument_ok symbol = true := fun hb => h ⟨ha, hb⟩
    simp [ha, hb]
  · simp [ha]

/-- C5 amended, witness: "EUR_USD" is claimed only by the OANDA test, and
both consultation orders agree on it. -/
theorem claim5_witness : broker_for eurusd = broker_for_swapped eurusd :=
  claim5_amended_theorem eurusd (by decide)

/-- C6: past warm-up, `generate_signal` returns buy exactly when the
previous fast ema is ≤ the previous slow ema, the last fast ema is above the
last slow ema, and the last rsi is defined and below 70; sell exactly when
the mirrored bearish cross holds with the last rsi defined and above 30; and
the empty (flat) string exactly when neither condition holds. -/
theorem claim6_theorem (x : List Row) (last prev : Row) (h25 : 25 ≤ x.length)
    (hl : x.getLastD dummyRow = last) (hp : x.dropLast.getLastD dummyRow = prev) :
    (generate_signal x = buySig ↔
      (prev.ema_fast ≤ prev.ema_slow ∧ last.ema_slow < last.ema_fast ∧
       rsiLtB last.rsi 70 = true)) ∧
    (generate_signal x = sellSig ↔
      (prev.ema_slow ≤ prev.ema_fast ∧ last.ema_fast < last.ema_slow ∧
       rsiGtB last.rsi 30 = true)) ∧
    (generate_signal x = [] ↔
      (¬(prev.ema_fast ≤ prev.ema_slow ∧ last.ema_slow < last.ema_fast ∧
         rsiLtB last.rsi 70 = true) ∧
       ¬(prev.ema_slow ≤ prev.ema_fast ∧ last.ema_fast < last.ema_slow ∧
         rsiGtB last.rsi 30 = true))) := by
  have hnl : ¬ x.length < 25 := by omega
  have hgs : generate_signal x =
      (if (decide (prev.ema_fast ≤ prev.ema_slow) && decide (last.ema_slow < last.ema_fast))
          && rsiLtB last.rsi 70 then buySig
       else if (decide (prev.ema_slow ≤ prev.ema_fast) && decide (last.ema_fast < last.ema_slow))
          && rsiGtB last.rsi 30 then sellSig
       else []) := by
    simp only [generate_signal, if_neg hnl, hl, hp]
  rw [hgs]
  by_cases h1 : ((decide (prev.ema_fast ≤ prev.ema_slow) && decide (last.ema_slow < last.ema_fast))
      && rsiLtB last.rsi 70) = true
  · have h1p : prev.ema_fast ≤ prev.ema_slow ∧ last.ema_slow < last.ema_fast ∧
        rsiLtB last.rsi 70 = true := by
      simp only [Bool.and_eq_true, decide_eq_true_eq] at h1
      exact ⟨h1.1.1, h1.1.2, h1.2⟩
    rw [if_pos h1]
    refine ⟨iff_of_true rfl h1p, ?_, ?_⟩
    · constructor
      · intro hx; exact absurd hx (by decide)
      · rintro ⟨-, hlt, -⟩; exact absurd hlt (lt_asymm h1p.2.1)
    · constructor
      · intro hx; exact absurd hx (by decide)
      · rintro ⟨hn1, -⟩; exact absurd h1p hn1
  · rw [if_neg h1]
    have h1p : ¬(prev.ema_fast ≤ prev.ema_slow ∧ last.ema_slow < last.ema_fast ∧
        rsiLtB last.rsi 70 = true) := by
      intro hc
      apply h1
      simp only [Bool.and_eq_true, decide_eq_true_eq]
      exact ⟨⟨hc.1, hc.2.1⟩, hc.2.2⟩
    by_cases h2 : ((decide (prev.ema_slow ≤ prev.ema_fast) && decide (last.ema_fast < last.ema_slow))
        && rsiGtB last.rsi 30) = true
    · have h2p : prev.ema_slow ≤ prev.ema_fast ∧ last.ema_fast < last.ema_slow ∧
          rsiGtB last.rsi 30 = true := by
        simp only [Bool.and_eq_true, decide_eq_true_eq] at h2
        exact ⟨h2.1.1, h2.1.2, h2.2⟩
      rw [if_pos h2]
      refine ⟨?_, iff_of_true rfl h2p, ?_⟩
      · constructor
        · intro hx; exact absurd hx (by decide)
        · rintro ⟨-, hlt, -⟩; exact absurd h2p.2.1 (lt_asymm hlt)
      · constructor
        · intro hx; exact absurd hx (by decide)
        · rintro ⟨-, hn2⟩; exact absurd h2p hn2
    · have h2p : ¬(prev.ema_slow ≤ prev.ema_fast ∧ last.ema_fast < last.ema_slow ∧
          rsiGtB last.rsi 30 = true) := by
        intro hc
        apply h2
        simp only [Bool.and_eq_true, decide_eq_true_eq]
        exact ⟨⟨hc.1, hc.2.1⟩, hc.2.2⟩
      rw [if_neg h2]
      refine ⟨?_, ?_, iff_of_true rfl ⟨h1p, h2p⟩⟩
      · constructor
        · intro hx; exact absurd hx (by decide)
        · intro hc; exact absurd hc h1p
      · constructor
        · intro hx; exact absurd hx (by decide)
        · intro hc; exact absurd hc h2p

/-- C6 witness: the characterisation applied to the concrete bullish-cross
frame, whose last two rows are known explicitly. -/
theorem claim6_witness :
    (generate_signal xA = buySig ↔
      ((2496:ℚ)/25 ≤ (12090:ℚ)/121 ∧ (133121:ℚ)/1331 < (12509:ℚ)/125 ∧
       rsiLtB (some ((37800:ℚ)/547)) 70 = true)) ∧
    (generate_signal xA = sellSig ↔
      ((12090:ℚ)/121 ≤ (2496:ℚ)/25 ∧ (12509:ℚ)/125 < (133121:ℚ)/1331 ∧
       rsiGtB (some ((37800:ℚ)/547)) 30 = true)) ∧
    (generate_signal xA = [] ↔
      (¬((2496:ℚ)/25 ≤ (12090:ℚ)/121 ∧ (133121:ℚ)/1331 < (12509:ℚ)/125 ∧
         rsiLtB (some ((37800:ℚ)/547)) 70 = true) ∧
       ¬((12090:ℚ)/121 ≤ (2496:ℚ)/25 ∧ (12509:ℚ)/125 < (133121:ℚ)/1331 ∧
         rsiGtB (some ((37800:ℚ)/547)) 30 = true))) :=
  claim6_theorem xA ⟨12509/125, 133121/1331, some (37800/547), some (547/2744)⟩
    ⟨2496/25, 12090/121, some (1400/27), some (27/196)⟩
    (le_of_eq lenA.symm) lastA prevA

/-- C7: the signal generator is flat-safe. Every candle series shorter than
the warm-up window of 22 rows (and in fact shorter than the 25-row gate)
yields the flat signal, and whenever the rsi cell of the last row is
undefined the generator returns flat — in both cases it returns a value, it
does not raise. -/
theorem claim7_theorem :
    (∀ df : List Candle, df.length < 22 → generate_signal (compute_indicators df) = []) ∧
    (∀ x : List Row, (x.getLastD dummyRow).rsi = none → generate_signal x = []) := by
  constructor
  · intro df hdf
    have hlen : (compute_indicators df).length < 25 :=
      lt_of_le_of_lt (compute_indicators_length_le df) (by omega)
    unfold generate_signal
    rw [if_pos hlen]
  · intro x hrsi
    rw [List.getLastD_eq_getLast?] at hrsi
    by_cases h25 : x.length < 25
    · unfold generate_signal
      rw [if_pos h25]
    · unfold generate_signal
      rw [if_neg h25]
      simp [hrsi, rsiLtB, rsiGtB]

/-- C7 witness: the flat results on a one-candle series and on a frame whose
last rsi cell is undefined. -/
theorem claim7_witness :
    generate_signal (compute_indicators [flatCandle 100]) = [] ∧
    generate_signal [dummyRow] = [] :=
  ⟨claim7_theorem.1 [flatCandle 100] (by decide),
   claim7_theorem.2 [dummyRow] rfl⟩

/-- C8: "BTC/USD" is accepted by the crypto membership test only, "EUR_USD"
by the FX membership test only, the unmatched "XYZ" routes to no adapter,
and for every environment `_trade_once("XYZ")` returns the structured
no-broker result (it does not raise); a cycle containing "XYZ" still
processes the remaining symbols. -/
theorem claim8_theorem :
    AlpacaBroker.instrument_ok btcusd = true ∧
    OandaBroker.instrument_ok btcusd = false ∧
    OandaBroker.instrument_ok eurusd = true ∧
    AlpacaBroker.instrument_ok eurusd = false ∧
    broker_for xyzSym = none ∧
    (∀ env : Env, trade_once env xyzSym = .ok TrRes.noBroker) ∧
    run_cycle envEmpty [xyzSym, eurusd] =
      [Entry.ok xyzSym TrRes.noBroker, Entry.ok eurusd TrRes.noCandles] := by
  refine ⟨by decide, by decide, by decide, by decide, by decide, ?_, by decide⟩
  intro env
  simp only [trade_once, show broker_for xyzSym = none from by decide]

/-- C9: per-symbol failures are isolated. If processing symbol `s` raises,
the cycle records a structured error entry for `s` in place, while every
symbol before and after `s` in the same tick is still processed, and the
results list keeps one entry per configured symbol. -/
theorem claim9_theorem (env : Env) (pre post : List (List Char)) (s e : List Char)
    (h : trade_once env s = .error e) :
    run_cycle env (pre ++ s :: post) =
      run_cycle env pre ++ Entry.err s e :: run_cycle env post ∧
    (run_cycle env (pre ++ s :: post)).length = pre.length + 1 + post.length := by
  constructor
  · simp [run_cycle, stepEntry, h]
  · simp [run_cycle]
    omega

/-- C9 witness: with a fetch that raises a network error, the "EUR_USD" step
fails, its entry is the structured error, and the surrounding symbols of the
same tick are still processed. -/
theorem claim9_witness :
    run_cycle envErr ([btcusd] ++ eurusd :: [xyzSym]) =
      run_cycle envErr [btcusd] ++ Entry.err eurusd "net".data :: run_cycle envErr [xyzSym] :=
  (claim9_theorem envErr [btcusd] [xyzSym] eurusd "net".data rfl).1

/-- C10: for every equity (including zero and negative), every risk percent
and every atr cell, `_size_from_risk` returns at least 1.0, so an order of at
least one unit is sized even with no equity; and the atr divisor is floored
at 1e-8, hence strictly positive — the division can never be by zero. -/
theorem claim10_theorem :
    (∀ equity rp a, 1 ≤ size_from_risk equity rp a) ∧
    (∀ v : ℚ, (1:ℚ)/100000000 ≤ atrFloor v ∧ 0 < atrFloor v) := by
  constructor
  · intro equity rp a
    cases a with
    | none => exact le_refl 1
    | some v =>
      simp only [size_from_risk]
      exact le_max_left 1 _
  · intro v
    refine ⟨le_max_right _ _, lt_of_lt_of_le (by norm_num) (le_max_right v _)⟩
